import Mathlib

/-!
Verification development for the pypsx-api data-acquisition library.

The definitions below are shallow embeddings of the Python functions in
`src/psx/` (`psx_reader.py`, `core.py`, `fetchers.py`).  Machine floats are
modelled as exact rationals (finite decimal literals round-trip exactly
through Python float repr, and no claim depends on rounding), Python
exceptions as `Except` values, and pandas DataFrames as lists of rows.
Network responses are inputs to the embedded functions.
-/

/-! ## Python numeric-literal parsing

Models the built-in `float(...)` / `int(...)` conversions and
`pandas.to_numeric` on strings, restricted to finite decimal/exponent
literals (the special values `nan`/`inf` and digit-group underscores are
outside the model; no claim touches them).
-/

/-- Numeric value of a digit string, most significant first. -/
def digitsToNat (cs : List Char) : Nat :=
  cs.foldl (fun a c => a * 10 + (c.toNat - 48)) 0

/-- Strip leading and trailing whitespace, as Python `float`/`int` do. -/
def trimChars (cs : List Char) : List Char :=
  ((cs.dropWhile Char.isWhitespace).reverse.dropWhile Char.isWhitespace).reverse

/-- Split a char list at the first char satisfying `p`; returns the part
before it and, when found, the part after it. -/
def splitFirst (p : Char → Bool) : List Char → List Char × Option (List Char)
  | [] => ([], none)
  | c :: rest =>
    if p c then ([], some rest)
    else
      let r := splitFirst p rest
      (c :: r.1, r.2)

/-- Mantissa of a float literal: `123`, `123.`, `123.45` or `.45`. -/
def parseMantissa? (cs : List Char) : Option ℚ :=
  match splitFirst (fun c => c = '.') cs with
  | (_, none) =>
    if cs ≠ [] ∧ cs.all Char.isDigit then some (digitsToNat cs : ℚ) else none
  | (ip, some frac) =>
    if (ip ≠ [] ∨ frac ≠ []) ∧ ip.all Char.isDigit ∧ frac.all Char.isDigit then
      some ((digitsToNat ip : ℚ) + (digitsToNat frac : ℚ) / (10 : ℚ) ^ frac.length)
    else none

/-- Exponent part of a float literal (after `e`/`E`): optional sign, digits. -/
def parseExp? (cs : List Char) : Option ℤ :=
  match cs with
  | '-' :: rest =>
    if rest ≠ [] ∧ rest.all Char.isDigit then some (-(digitsToNat rest : ℤ)) else none
  | '+' :: rest =>
    if rest ≠ [] ∧ rest.all Char.isDigit then some (digitsToNat rest : ℤ) else none
  | rest =>
    if rest ≠ [] ∧ rest.all Char.isDigit then some (digitsToNat rest : ℤ) else none

/-- Unsigned float literal: mantissa with optional `e`/`E` exponent. -/
def pyFloatUnsigned? (cs : List Char) : Option ℚ :=
  match splitFirst (fun c => c = 'e' ∨ c = 'E') cs with
  | (_, none) => parseMantissa? cs
  | (mant, some ex) =>
    match parseMantissa? mant, parseExp? ex with
    | some m, some z => some (m * (10 : ℚ) ^ z)
    | _, _ => none

/-- Python `float(s)` on a char list: strip whitespace, optional sign,
unsigned literal; `none` models a raised `ValueError`. -/
def pyFloat? (cs : List Char) : Option ℚ :=
  match trimChars cs with
  | '-' :: rest => (pyFloatUnsigned? rest).map (fun q => -q)
  | '+' :: rest => pyFloatUnsigned? rest
  | rest => pyFloatUnsigned? rest

/-- Python `int(s)`: strip whitespace, optional sign, nonempty digits;
`none` models a raised `ValueError` (in particular `int("")` fails). -/
def pyInt? (s : String) : Option ℤ :=
  match trimChars s.toList with
  | '-' :: rest =>
    if rest ≠ [] ∧ rest.all Char.isDigit then some (-(digitsToNat rest : ℤ)) else none
  | '+' :: rest =>
    if rest ≠ [] ∧ rest.all Char.isDigit then some (digitsToNat rest : ℤ) else none
  | rest =>
    if rest ≠ [] ∧ rest.all Char.isDigit then some (digitsToNat rest : ℤ) else none

/-- The char list `value.replace(",", "").replace("-", "0")` from
`parse_float` in `src/psx/fetchers.py`: commas removed, then every dash
replaced by a zero digit. -/
def pyReplaceDashes (value : String) : List Char :=
  (value.toList.filter (fun c => c ≠ ',')).map (fun c => if c = '-' then '0' else c)

/-- `parse_float` from `src/psx/fetchers.py`: strip commas, replace every
dash with `0`, convert with `float`, and fall back to `0.0` when the
conversion raises. -/
def parse_float (value : String) : ℚ :=
  match pyFloat? (pyReplaceDashes value) with
  | some q => q
  | none => 0

/-! ## Dates

Calendar dates with the standard civil-calendar/rata-die conversion, so
that Python `date`/`timedelta` subtraction (`(end - start).days`,
`end - timedelta(days=n)`) becomes integer arithmetic.
-/

/-- A calendar date as Python `datetime.date` holds it. -/
structure Date where
  year : Int
  month : Nat
  day : Nat
deriving DecidableEq, Repr

/-- Gregorian leap-year rule. -/
def isLeap (y : Int) : Bool :=
  y % 4 = 0 ∧ (y % 100 ≠ 0 ∨ y % 400 = 0)

/-- Number of days in a month (month `0` or `> 12` never arises for valid
dates; the fallthrough value is irrelevant but keeps the function total). -/
def daysInMonth (y : Int) (m : Nat) : Nat :=
  if m = 2 then (if isLeap y then 29 else 28)
  else if m = 4 ∨ m = 6 ∨ m = 9 ∨ m = 11 then 30
  else 31

/-- Days since 1970-01-01 (civil-from-days algorithm). -/
def Date.toRataDie (d : Date) : Int :=
  let y : Int := if d.month ≤ 2 then d.year - 1 else d.year
  let m : Int := d.month
  let era : Int := Int.fdiv y 400
  let yoe : Int := y - era * 400
  let mp : Int := Int.emod (m + 9) 12
  let doy : Int := Int.fdiv (153 * mp + 2) 5 + (d.day : Int) - 1
  let doe : Int := yoe * 365 + Int.fdiv yoe 4 - Int.fdiv yoe 100 + doy
  era * 146097 + doe - 719468

/-- Inverse of `Date.toRataDie` (days-to-civil algorithm). -/
def Date.ofRataDie (z0 : Int) : Date :=
  let z := z0 + 719468
  let era := Int.fdiv z 146097
  let doe := z - era * 146097
  let yoe := Int.fdiv (doe - Int.fdiv doe 1460 + Int.fdiv doe 36524 - Int.fdiv doe 146096) 365
  let y := yoe + era * 400
  let doy := doe - (365 * yoe + Int.fdiv yoe 4 - Int.fdiv yoe 100)
  let mp := Int.fdiv (5 * doy + 2) 153
  let dd := doy - Int.fdiv (153 * mp + 2) 5 + 1
  let m := if mp < 10 then mp + 3 else mp - 9
  ⟨(if m ≤ 2 then y + 1 else y), m.toNat, dd.toNat⟩

/-- `relativedelta(months=1)`: advance one calendar month, clamping the day
to the target month length. -/
def addOneMonth (d : Date) : Date :=
  if d.month = 12 then
    ⟨d.year + 1, 1, min d.day (daysInMonth (d.year + 1) 1)⟩
  else
    ⟨d.year, d.month + 1, min d.day (daysInMonth d.year (d.month + 1))⟩

/-- Absolute month counter `12*year + (month - 1)`; consecutive calendar
months have consecutive indexes. -/
def monthIdx (d : Date) : Int :=
  12 * d.year + ((d.month : Int) - 1)

/-- The loop of `_generate_date_range`: the seed date followed by `n`
successive one-month steps. -/
def monthIter : Nat → Date → List Date
  | 0, d => [d]
  | n + 1, d => d :: monthIter n (addOneMonth d)

/-- `PSXDataReader._generate_date_range` from `src/psx/psx_reader.py`:
`(end - start).days // 30` extra months after the first day of `start`'s
month (Python `//` is floor division, so a negative gap yields an empty
`range`), with the source's dead nonemptiness guard kept. -/
def generateDateRange (start e : Date) : List Date :=
  let periodDays := e.toRataDie - start.toRataDie
  let numberOfMonths := Int.fdiv periodDays 30
  let dates := monthIter numberOfMonths.toNat ⟨start.year, start.month, 1⟩
  if dates = [] then [start] else dates

/-! ## Tabular results

A historical DataFrame as produced by `_parse_html_table`: indexed by the
parsed TIME value (a rata-die day), with the five data columns OPEN, HIGH,
LOW, CLOSE, VOLUME.  A cell is a raw string, a numeric value, or NaN.
-/

/-- One DataFrame cell. -/
inductive Cell where
  | str (s : String)
  | num (q : ℚ)
  | nan
deriving DecidableEq, Repr

/-- One row of a historical DataFrame, keyed by its TIME index value. -/
structure Row where
  time : Int
  open_ : Cell
  high : Cell
  low : Cell
  close : Cell
  volume : Cell
deriving DecidableEq, Repr

/-- A historical DataFrame: its rows in order. -/
abbrev Table := List Row

/-- Row comparison by index value, the order `sort_index` uses. -/
def rowLE (a b : Row) : Prop := a.time ≤ b.time

/-- Strict chronological order between rows. -/
def rowLT (a b : Row) : Prop := a.time < b.time

instance : DecidableRel rowLE := fun a b => inferInstanceAs (Decidable (a.time ≤ b.time))

instance : IsTotal Row rowLE := ⟨fun a b => le_total a.time b.time⟩

instance : IsTrans Row rowLE := ⟨fun _ _ _ h h2 => le_trans h h2⟩

/-- One numeric coercion step of `_preprocess_data`:
`pd.to_numeric(df[col].astype(str).str.replace(",", ""), errors="coerce")`.
A string cell has its commas removed and is reparsed, unparseable input
becoming NaN (not zero).  On an already numeric cell `astype(str)` followed
by `to_numeric` round-trips the value (Python float repr is exact), and
`"nan"` reparses as NaN.  `removeCommas` is the `.str.replace(",", "")`
step. -/
def removeCommas (s : String) : List Char :=
  s.toList.filter (fun ch => ch ≠ ',')

/-- Numeric coercion of one cell; see the comment on `removeCommas`. -/
def coerceCell (c : Cell) : Cell :=
  match c with
  | .str s =>
    match pyFloat? (removeCommas s) with
    | some q => .num q
    | none => .nan
  | .num q => .num q
  | .nan => .nan

/-- A cell that has been through the numeric coercion: numeric or NaN,
never a raw string. -/
def isCoerced (c : Cell) : Prop := (∃ q, c = Cell.num q) ∨ c = Cell.nan

/-- Apply the numeric coercion to the five declared numeric columns of a
row (all five are present in every table `_preprocess_data` receives). -/
def coerceRow (r : Row) : Row :=
  { r with
    open_ := coerceCell r.open_
    high := coerceCell r.high
    low := coerceCell r.low
    close := coerceCell r.close
    volume := coerceCell r.volume }

/-- `df.loc[~df.index.duplicated(keep="last")]`: keep, in order, exactly
the rows whose index value does not occur again later. -/
def dropDuplicatesKeepLast : Table → Table
  | [] => []
  | r :: rest =>
    if rest.any (fun x => x.time == r.time) then dropDuplicatesKeepLast rest
    else r :: dropDuplicatesKeepLast rest

/-- `PSXDataReader._preprocess_data` from `src/psx/psx_reader.py`:
concatenate, drop duplicate index values keeping the last occurrence, sort
by index, coerce the numeric columns. -/
def preprocessData (data : List Table) : Table :=
  if data = [] then []
  else
    let df := data.flatten
    let df := dropDuplicatesKeepLast df
    let df := List.insertionSort rowLE df
    df.map coerceRow

/-! ## HTML table parsing (`_parse_html_table`) -/

/-- Split a char list on every occurrence of `sep` (the groups between
separators, like `str.split`). -/
def splitOnChar (sep : Char) : List Char → List (List Char)
  | [] => [[]]
  | c :: rest =>
    match splitOnChar sep rest with
    | [] => [[]]
    | g :: gs => if c = sep then [] :: g :: gs else (c :: g) :: gs

/-- Month abbreviations accepted by `strptime`'s `%b` (case-insensitive). -/
def monthAbbrevs : List (List Char) :=
  [['j', 'a', 'n'], ['f', 'e', 'b'], ['m', 'a', 'r'], ['a', 'p', 'r'],
   ['m', 'a', 'y'], ['j', 'u', 'n'], ['j', 'u', 'l'], ['a', 'u', 'g'],
   ['s', 'e', 'p'], ['o', 'c', 't'], ['n', 'o', 'v'], ['d', 'e', 'c']]

/-- `datetime.strptime(value, "%b %d, %Y")`: month abbreviation, day,
comma, year, with the day validated against the month length. -/
def parseMonDDYYYY (s : String) : Option Date :=
  match splitOnChar ' ' s.toList with
  | [mon, dcs, ycs] =>
    match dcs.reverse with
    | ',' :: dsRev =>
      match monthAbbrevs.findIdx? (fun a => a = mon.map Char.toLower) with
      | none => none
      | some mi =>
        let ds := dsRev.reverse
        if ds ≠ [] ∧ ds.all Char.isDigit ∧ ds.length ≤ 2
            ∧ ycs ≠ [] ∧ ycs.all Char.isDigit ∧ ycs.length ≤ 4 then
          let d := digitsToNat ds
          let y : Int := digitsToNat ycs
          if 1 ≤ d ∧ d ≤ daysInMonth y (mi + 1) then some ⟨y, mi + 1, d⟩ else none
        else none
    | _ => none
  | _ => none

/-- The `defaultdict(list)` accumulator of `_parse_html_table`: one list
per header, in the fixed order TIME, OPEN, HIGH, LOW, CLOSE, VOLUME. -/
structure Stocks where
  time : List Int
  open_ : List String
  high : List String
  low : List String
  close : List String
  volume : List String
deriving DecidableEq, Repr

/-- The empty accumulator. -/
def emptyStocks : Stocks := ⟨[], [], [], [], [], []⟩

/-- Process one `<tr>` of the page: rows with fewer cells than the 6-entry
header are skipped whole; otherwise each header is zipped with its cell.
For the TIME header a failed date parse hits a `continue` that skips only
that one append — the remaining five cells are still appended, so the
accumulator lists fall out of step. -/
def processTableRow (st : Stocks) (cols : List String) : Stocks :=
  if cols.length < 6 then st
  else
    let t := match parseMonDDYYYY (cols.getD 0 "") with
      | some d => st.time ++ [d.toRataDie]
      | none => st.time
    { time := t
      open_ := st.open_ ++ [cols.getD 1 ""]
      high := st.high ++ [cols.getD 2 ""]
      low := st.low ++ [cols.getD 3 ""]
      close := st.close ++ [cols.getD 4 ""]
      volume := st.volume ++ [cols.getD 5 ""] }

/-- Assemble the six accumulator lists into rows (the zip underlying
`pd.DataFrame(stocks, columns=HEADERS)` when the lengths agree). -/
def stocksToTable (st : Stocks) : Table :=
  (st.time.zip ((st.open_.zip st.high).zip ((st.low.zip st.close).zip st.volume))).map
    (fun p => ⟨p.1, .str p.2.1.1, .str p.2.1.2, .str p.2.2.1.1, .str p.2.2.1.2, .str p.2.2.2⟩)

/-- `PSXDataReader._parse_html_table` from `src/psx/psx_reader.py`, on the
`<td>` texts of each `<tr>`.  An empty TIME list yields an empty frame;
otherwise `pd.DataFrame` demands six equal-length lists and raises
`ValueError` when the invalid-date `continue` has desynchronised them. -/
def parseHtmlTable (rows : List (List String)) : Except String Table :=
  let st := rows.foldl processTableRow emptyStocks
  if st.time = [] then .ok []
  else if st.open_.length = st.time.length ∧ st.high.length = st.time.length
      ∧ st.low.length = st.time.length ∧ st.close.length = st.time.length
      ∧ st.volume.length = st.time.length then
    .ok (stocksToTable st)
  else .error "ValueError: All arrays must be of the same length"

/-! ## Error taxonomy and the bounded concurrent fetcher -/

/-- The exception classes of `src/psx/exceptions.py` that the embedded
functions raise, each carrying its message. -/
inductive PSXErr where
  | connectionError (msg : String)
  | dataError (msg : String)
  | requestError (msg : String)
  | valueError (msg : String)
deriving DecidableEq, Repr

/-- Message carried by an error (`str(e)` in the Python wrappers). -/
def PSXErr.message : PSXErr → String
  | .connectionError m => m
  | .dataError m => m
  | .requestError m => m
  | .valueError m => m

/-- The `as_completed` collection loop of `get_historical_data`:
`future.result()` re-raises the first error met in completion order,
discarding the batch; otherwise all unit frames are collected in order. -/
def collectResults : List (Except PSXErr Table) → Except PSXErr (List Table)
  | [] => .ok []
  | .error e :: _ => .error e
  | .ok t :: rest =>
    match collectResults rest with
    | .error e => .error e
    | .ok ts => .ok (t :: ts)

/-- The per-unit outcomes the executor delivers, in completion order:
`order` lists the indexes of the month units as their futures complete, and
`fetch` is the outcome of `_download_data` for a unit (a frame, or the
`PSXRequestError` it wraps every exception into). -/
def completedResults (fetch : Date → Except PSXErr Table) (order : List Nat)
    (start e : Date) : List (Except PSXErr Table) :=
  order.filterMap (fun i => ((generateDateRange start e)[i]?).map fetch)

/-- `PSXDataReader.get_historical_data` from `src/psx/psx_reader.py`:
partition into month units, fetch them on the worker pool, and either
re-raise the first completed error, return an empty frame when nothing was
collected, or merge the collected frames. -/
def readerGetHistoricalData (fetch : Date → Except PSXErr Table) (order : List Nat)
    (start e : Date) : Except PSXErr Table :=
  match collectResults (completedResults fetch order start e) with
  | .error err => .error err
  | .ok data => if data = [] then .ok [] else .ok (preprocessData data)

/-! ## Ticker facade (`src/psx/core.py`) -/

/-- The period-to-start derivation of `PSXTicker.get_historical_data`:
`value = int(period[:-2])`, `unit = period[-2:]`, then 30- or 365-day
arithmetic.  String slicing truncates exactly as Python does, so a period
like `"1y"` leaves `""` for `int`, which raises before any unit check. -/
def derivePeriodStart (endRd : Int) (period : String) : Except PSXErr Int :=
  let value? := pyInt? (period.take (period.length - 2))
  let unit := period.drop (period.length - 2)
  match value? with
  | none => .error (.valueError "invalid literal for int() with base 10")
  | some value =>
    if unit = "mo" then .ok (endRd - value * 30)
    else if unit = "y" then .ok (endRd - value * 365)
    else .error (.valueError "Invalid period format. Use Xmo or Xy (e.g. 1mo, 1y)")

/-- `PSXTicker.get_historical_data` from `src/psx/core.py`: default the end
to now, derive the start from `period` when absent (errors there surface
unwrapped, being raised before the `try`), then delegate to the reader,
wrapping any of its errors into a terminal `PSXRequestError`. -/
def tickerGetHistoricalData (now : Int) (startQ endQ : Option Int) (period : String)
    (fetch : Date → Except PSXErr Table) (order : List Nat) : Except PSXErr Table :=
  let endRd := endQ.getD now
  let startE : Except PSXErr Int :=
    match startQ with
    | some s => .ok s
    | none => derivePeriodStart endRd period
  match startE with
  | .error e => .error e
  | .ok startRd =>
    match readerGetHistoricalData fetch order (Date.ofRataDie startRd) (Date.ofRataDie endRd) with
    | .ok df => .ok df
    | .error e => .error (.requestError ("Failed to fetch historical data: " ++ e.message))

/-! ## Intraday (`PSXDataReader.get_intraday_data` and its facade) -/

/-- One intraday sample `[timestamp, price, volume]`. -/
abbrev Tick := Int × ℚ × ℚ

/-- Tick comparison by timestamp. -/
def tickLE (a b : Tick) : Prop := a.1 ≤ b.1

instance : DecidableRel tickLE := fun a b => inferInstanceAs (Decidable (a.1 ≤ b.1))

instance : IsTotal Tick tickLE := ⟨fun a b => le_total a.1 b.1⟩

instance : IsTrans Tick tickLE := ⟨fun _ _ _ h h2 => le_trans h h2⟩

/-- The decoded JSON body of the timeseries endpoint: `status` is absent or
an integer, `data` is absent or a list of ticks. -/
structure IntradayPayload where
  status : Option Int
  data : Option (List Tick)
deriving DecidableEq

/-- What the body of `get_intraday_data` raises before the blanket handler
rewrites it: a generic Python exception (HTTP error, JSON decode error,
`KeyError`) or the explicit `PSXDataError`. -/
inductive IntradayExc where
  | pyExc (msg : String)
  | psxDataError (msg : String)
deriving DecidableEq

/-- Message of a body-level intraday exception. -/
def IntradayExc.message : IntradayExc → String
  | .pyExc m => m
  | .psxDataError m => m

/-- The `try` body of `PSXDataReader.get_intraday_data`: a failed request
or undecodable body is a generic exception; a payload with `status != 1`
or missing/empty `data` raises `PSXDataError`; otherwise the ticks are
framed and sorted by timestamp. -/
def getIntradayDataBody (symbol : String) (resp : Except String IntradayPayload) :
    Except IntradayExc (List Tick) :=
  match resp with
  | .error m => .error (.pyExc m)
  | .ok p =>
    match p.status with
    | none => .error (.pyExc "KeyError: status")
    | some st =>
      if st ≠ 1 ∨ p.data.getD [] = [] then
        .error (.psxDataError ("No intraday data available for " ++ symbol))
      else .ok (List.insertionSort tickLE (p.data.getD []))

/-- `PSXDataReader.get_intraday_data` from `src/psx/psx_reader.py`: the
blanket `except Exception` converts every body-level exception — the
explicit `PSXDataError` included — into a `PSXConnectionError`. -/
def getIntradayData (symbol : String) (resp : Except String IntradayPayload) :
    Except PSXErr (List Tick) :=
  match getIntradayDataBody symbol resp with
  | .ok t => .ok t
  | .error e =>
    .error (.connectionError ("Failed to fetch intraday data for " ++ symbol ++ ": " ++ e.message))

/-- `PSXTicker.get_intraday_data` from `src/psx/core.py`: delegate to the
reader and wrap any error into a terminal `PSXRequestError`. -/
def tickerGetIntradayData (symbol : String) (resp : Except String IntradayPayload) :
    Except PSXErr (List Tick) :=
  match getIntradayData symbol resp with
  | .ok t => .ok t
  | .error e => .error (.requestError ("Failed to fetch intraday data: " ++ e.message))

/-! ## Direct-API adapter (`fetch_historical_data` in `src/psx/fetchers.py`)

The two HTTP requests (primary endpoint, and the secondary endpoint tried
after a 404) are inputs, each given as its received response.
-/

/-- A pandas column label: positional (from a list-of-lists frame) or
named (from parsed HTML headers). -/
inductive ColLabel where
  | idx (n : Nat)
  | name (s : String)
deriving DecidableEq, Repr

/-- A raw DataFrame of strings before type conversion. -/
structure Frame where
  cols : List ColLabel
  rows : List (List String)
deriving DecidableEq, Repr

/-- The `column_map` renaming of `fetch_historical_data`. -/
def columnMap (s : String) : String :=
  if s = "Date" then "date"
  else if s = "Open" then "open"
  else if s = "High" then "high"
  else if s = "Low" then "low"
  else if s = "Close" then "close"
  else if s = "Volume" then "volume"
  else if s = "Change" then "change"
  else s

/-- `df.rename(columns=column_map)` on one label: positional labels are
untouched. -/
def renameCol : ColLabel → ColLabel
  | .idx n => .idx n
  | .name s => .name (columnMap s)

/-- `pd.to_datetime` restricted to the `YYYY-MM-DD` strings this endpoint
produces; `none` models the raised parse error. -/
def parseIsoDate? (s : String) : Option Int :=
  match splitOnChar '-' s.toList with
  | [ys, ms, ds] =>
    if ys ≠ [] ∧ ys.all Char.isDigit
        ∧ ms ≠ [] ∧ ms.all Char.isDigit
        ∧ ds ≠ [] ∧ ds.all Char.isDigit then
      let y : Int := digitsToNat ys
      let m := digitsToNat ms
      let d := digitsToNat ds
      if 1 ≤ m ∧ m ≤ 12 ∧ 1 ≤ d ∧ d ≤ daysInMonth y m then
        some (Date.toRataDie ⟨y, m, d⟩)
      else none
    else none
  | _ => none

/-- A converted row of the adapter's output: the parsed date plus each
column's cell after the numeric conversion pass. -/
structure HistRow where
  date : Int
  fields : List (ColLabel × Cell)
deriving DecidableEq, Repr

/-- Date order on converted rows, for `sort_values("date")`. -/
def histLE (a b : HistRow) : Prop := a.date ≤ b.date

instance : DecidableRel histLE := fun a b => inferInstanceAs (Decidable (a.date ≤ b.date))

instance : IsTotal HistRow histLE := ⟨fun a b => le_total a.date b.date⟩

instance : IsTrans HistRow histLE := ⟨fun _ _ _ h h2 => le_trans h h2⟩

/-- The declared numeric columns of the adapter. -/
def numericNames : List String := ["open", "high", "low", "close", "volume"]

/-- Convert one cell: columns named in `numeric_cols` go through the
comma-strip and `to_numeric` coercion, the rest stay strings. -/
def convertField (l : ColLabel) (v : String) : ColLabel × Cell :=
  match l with
  | .name s => if s ∈ numericNames then (l, coerceCell (.str v)) else (l, .str v)
  | .idx n => (.idx n, .str v)

/-- The rename / `to_datetime` / `to_numeric` / `sort_values` tail of
`fetch_historical_data`: a frame without a `date` column raises `KeyError`
(this is what the list-of-lists frame of the new API format hits, its
columns being positional), a date cell `to_datetime` cannot parse raises,
and otherwise the converted rows are sorted by date. -/
def standardizeAndConvert (f : Frame) : Except PSXErr (List HistRow) :=
  let cols := f.cols.map renameCol
  match cols.findIdx? (fun c => c = ColLabel.name "date") with
  | none => .error (.requestError "KeyError: date")
  | some di =>
    match f.rows.mapM (fun r => (parseIsoDate? (r.getD di "")).map (fun d => (d, r))) with
    | none => .error (.requestError "to_datetime: unable to parse date")
    | some drows =>
      let conv := drows.map (fun dr =>
        { date := dr.1, fields := (cols.zip dr.2).map (fun cv => convertField cv.1 cv.2) })
      .ok (List.insertionSort histLE conv)

/-- The decoded JSON body of the historical endpoint: an object with a
`data` list, or an object without one (which sends the code down the
HTML-table branch). -/
inductive JsonVal where
  | withData (records : List (List String))
  | withoutData
deriving DecidableEq, Repr

/-- A received HTTP response: status code, decoded JSON body when the text
is valid JSON, and the `<table class="historical-data">` of the text (as
header texts and row texts) when one is present. -/
structure ApiResponse where
  status : Nat
  json? : Option JsonVal
  htmlTable? : Option (List String × List (List String))
deriving DecidableEq, Repr

/-- `pd.DataFrame(records)` on a list of lists: positional column labels. -/
def frameOfLists (records : List (List String)) : Frame :=
  { cols := (List.range (records.headD []).length).map ColLabel.idx, rows := records }

/-- `pd.DataFrame(rows, columns=headers)` on the scraped HTML table. -/
def frameOfRows (headers : List String) (rows : List (List String)) : Frame :=
  { cols := headers.map ColLabel.name, rows := rows }

/-- The body of `fetch_historical_data` applied to the effective response
(after the 404 retry has picked which response to use). -/
def processResponse (resp : ApiResponse) : Except PSXErr (List HistRow) :=
  if resp.status = 401 then .error (.requestError "Unauthorized access to PSX API")
  else if resp.status ≠ 200 then
    .error (.requestError ("Failed to fetch historical data: HTTP " ++ toString resp.status))
  else
    match resp.json? with
    | none => .error (.requestError "Invalid JSON response from PSX API")
    | some (.withData records) =>
      if records = [] then .ok []
      else standardizeAndConvert (frameOfLists records)
    | some .withoutData =>
      match resp.htmlTable? with
      | none => .error (.requestError "Could not find historical data table")
      | some ht =>
        let rows := ht.2.filter (fun r => r ≠ [])
        if rows.all (fun r => r.length = ht.1.length) then
          standardizeAndConvert (frameOfRows ht.1 rows)
        else .error (.requestError "ValueError: arrays of unequal length")

/-- The tail `except Exception` of `fetch_historical_data`, which rewraps
every error raised inside the `try` into a fresh `PSXRequestError`. -/
def respondHistorical (resp : ApiResponse) : Except PSXErr (List HistRow) :=
  match processResponse resp with
  | .ok df => .ok df
  | .error e => .error (.requestError ("Error fetching historical data: " ++ e.message))

/-- `fetch_historical_data` from `src/psx/fetchers.py`: issue the primary
request; on a 404 retry once against the secondary endpoint and use that
response instead; then process the effective response. -/
def fetch_historical_data (resp1 resp2 : ApiResponse) : Except PSXErr (List HistRow) :=
  respondHistorical (if resp1.status = 404 then resp2 else resp1)

/-! ## Helper lemmas -/

theorem mem_of_mem_dropWhile {α : Type} {p : α → Bool} {a : α} {l : List α}
    (h : a ∈ l.dropWhile p) : a ∈ l := by
  induction l with
  | nil => simp at h
  | cons c cs ih =>
    rw [List.dropWhile_cons] at h
    split at h
    · exact List.mem_cons_of_mem _ (ih h)
    · exact h

theorem mem_trimChars {a : Char} {cs : List Char} (h : a ∈ trimChars cs) : a ∈ cs := by
  unfold trimChars at h
  rw [List.mem_reverse] at h
  have h2 := mem_of_mem_dropWhile h
  rw [List.mem_reverse] at h2
  exact mem_of_mem_dropWhile h2

theorem pyReplaceDashes_no_dash {value : String} {c : Char}
    (h : c ∈ pyReplaceDashes value) : c ≠ '-' := by
  unfold pyReplaceDashes at h
  rw [List.mem_map] at h
  obtain ⟨c0, -, rfl⟩ := h
  split
  · decide
  · assumption

theorem parseMantissa_nonneg {cs : List Char} {q : ℚ}
    (h : parseMantissa? cs = some q) : 0 ≤ q := by
  unfold parseMantissa? at h
  split at h <;> split at h
  · obtain rfl : _ = q := Option.some.inj h
    positivity
  · exact absurd h (by simp)
  · obtain rfl : _ = q := Option.some.inj h
    positivity
  · exact absurd h (by simp)

theorem pyFloatUnsigned_nonneg {cs : List Char} {q : ℚ}
    (h : pyFloatUnsigned? cs = some q) : 0 ≤ q := by
  unfold pyFloatUnsigned? at h
  split at h
  · exact parseMantissa_nonneg h
  · split at h
    · rename_i m z hm _
      obtain rfl : _ = q := Option.some.inj h
      exact mul_nonneg (parseMantissa_nonneg hm) (le_of_lt (zpow_pos (by norm_num) z))
    · simp at h

theorem parse_float_nonneg (value : String) : 0 ≤ parse_float value := by
  unfold parse_float
  split
  · rename_i q hq
    unfold pyFloat? at hq
    split at hq
    · rename_i rest hr
      exfalso
      have hd : ('-' : Char) ∈ trimChars (pyReplaceDashes value) := by
        rw [hr]; exact List.mem_cons_self _ _
      exact pyReplaceDashes_no_dash (mem_trimChars hd) rfl
    · exact pyFloatUnsigned_nonneg hq
    · exact pyFloatUnsigned_nonneg hq
  · exact le_refl 0

theorem dropDup_sublist (l : Table) : List.Sublist (dropDuplicatesKeepLast l) l := by
  induction l with
  | nil => exact List.Sublist.refl []
  | cons r rest ih =>
    simp only [dropDuplicatesKeepLast]
    split
    · exact ih.cons r
    · exact ih.cons₂ r

theorem dropDup_times_nodup (l : Table) :
    ((dropDuplicatesKeepLast l).map Row.time).Nodup := by
  induction l with
  | nil => simp [dropDuplicatesKeepLast]
  | cons r rest ih =>
    simp only [dropDuplicatesKeepLast]
    split
    · exact ih
    · rename_i hany
      simp only [List.map_cons, List.nodup_cons]
      refine ⟨?_, ih⟩
      intro hmem
      rw [List.mem_map] at hmem
      obtain ⟨x, hx, ht⟩ := hmem
      exact hany (List.any_eq_true.mpr ⟨x, (dropDup_sublist rest).subset hx, by simp [ht]⟩)

theorem dropDup_eq_self {l : Table} (h : (l.map Row.time).Nodup) :
    dropDuplicatesKeepLast l = l := by
  induction l with
  | nil => rfl
  | cons r rest ih =>
    simp only [List.map_cons, List.nodup_cons] at h
    simp only [dropDuplicatesKeepLast]
    rw [if_neg, ih h.2]
    intro hany
    obtain ⟨x, hx, hbeq⟩ := List.any_eq_true.mp hany
    exact h.1 (List.mem_map.mpr ⟨x, hx, by simpa using hbeq⟩)

theorem coerceCell_idem (c : Cell) : coerceCell (coerceCell c) = coerceCell c := by
  cases c with
  | str s =>
    rcases hp : pyFloat? (removeCommas s) with - | q
    · simp [coerceCell, hp]
    · simp [coerceCell, hp]
  | num q => rfl
  | nan => rfl

theorem coerceRow_idem (r : Row) : coerceRow (coerceRow r) = coerceRow r := by
  simp [coerceRow, coerceCell_idem]

theorem isCoerced_coerceCell (c : Cell) : isCoerced (coerceCell c) := by
  cases c with
  | str s =>
    simp only [coerceCell]
    split
    · exact Or.inl ⟨_, rfl⟩
    · exact Or.inr rfl
  | num q => exact Or.inl ⟨q, rfl⟩
  | nan => exact Or.inr rfl

theorem map_coerceRow_time (l : Table) :
    (l.map coerceRow).map Row.time = l.map Row.time := by
  rw [List.map_map]
  rfl

theorem map_coerceRow_idem (l : Table) :
    (l.map coerceRow).map coerceRow = l.map coerceRow := by
  rw [List.map_map]
  exact List.map_congr_left (fun a _ => coerceRow_idem a)

theorem preprocessData_eq (data : List Table) (h : data ≠ []) :
    preprocessData data
      = (List.insertionSort rowLE (dropDuplicatesKeepLast data.flatten)).map coerceRow := by
  simp [preprocessData, h]

theorem preprocess_times_nodup (data : List Table) :
    ((preprocessData data).map Row.time).Nodup := by
  by_cases h : data = []
  · simp [preprocessData, h]
  · rw [preprocessData_eq data h, map_coerceRow_time]
    have hperm :
        List.Perm
          ((List.insertionSort rowLE (dropDuplicatesKeepLast data.flatten)).map Row.time)
          ((dropDuplicatesKeepLast data.flatten).map Row.time) :=
      (List.perm_insertionSort rowLE _).map Row.time
    exact hperm.nodup_iff.mpr (dropDup_times_nodup _)

theorem preprocess_pairwise_le (data : List Table) :
    List.Pairwise rowLE (preprocessData data) := by
  by_cases h : data = []
  · simp [preprocessData, h]
  · rw [preprocessData_eq data h, List.pairwise_map]
    exact (List.sorted_insertionSort rowLE _).imp (fun hab => hab)

theorem pairwise_lt_of_le_nodup {l : Table} (hle : List.Pairwise rowLE l)
    (hnd : (l.map Row.time).Nodup) : List.Pairwise rowLT l := by
  induction l with
  | nil => exact List.Pairwise.nil
  | cons r rest ih =>
    rw [List.pairwise_cons] at hle ⊢
    simp only [List.map_cons, List.nodup_cons] at hnd
    refine ⟨fun b hb => lt_of_le_of_ne (hle.1 b hb) ?_, ih hle.2 hnd.2⟩
    intro heq
    exact hnd.1 (List.mem_map.mpr ⟨b, hb, heq.symm⟩)

theorem preprocess_pairwise_lt (data : List Table) :
    List.Pairwise rowLT (preprocessData data) :=
  pairwise_lt_of_le_nodup (preprocess_pairwise_le data) (preprocess_times_nodup data)

theorem preprocess_fix_coerce (x : List Table) :
    (preprocessData x).map coerceRow = preprocessData x := by
  by_cases h : x = []
  · simp [preprocessData, h]
  · rw [preprocessData_eq x h, map_coerceRow_idem]

theorem preprocess_idem (x : List Table) :
    preprocessData [preprocessData x] = preprocessData x := by
  rw [preprocessData_eq [preprocessData x] (by simp)]
  rw [show ([preprocessData x] : List Table).flatten = preprocessData x by simp]
  rw [dropDup_eq_self (preprocess_times_nodup x)]
  rw [List.Sorted.insertionSort_eq (preprocess_pairwise_le x)]
  exact preprocess_fix_coerce x

theorem flatten_replicate_nil (n : Nat) :
    (List.replicate n ([] : Table)).flatten = [] := by
  induction n with
  | zero => rfl
  | succ k ih => simp [List.replicate_succ, ih]

theorem preprocess_replicate_nil (n : Nat) :
    preprocessData (List.replicate n ([] : Table)) = [] := by
  by_cases h : n = 0
  · simp [h, preprocessData]
  · have hne : List.replicate n ([] : Table) ≠ [] := by
      simpa using h
    rw [preprocessData_eq _ hne, flatten_replicate_nil]
    rfl

theorem collectResults_all_empty {l : List (Except PSXErr Table)}
    (h : ∀ r ∈ l, r = .ok ([] : Table)) :
    collectResults l = .ok (List.replicate l.length []) := by
  induction l with
  | nil => rfl
  | cons r rest ih =>
    have hr : r = .ok [] := h r (List.mem_cons_self r rest)
    subst hr
    simp only [collectResults]
    rw [ih (fun x hx => h x (List.mem_cons_of_mem _ hx))]
    simp [List.replicate_succ]

theorem collectResults_error {l : List (Except PSXErr Table)} {e : PSXErr}
    (h : Except.error e ∈ l) : ∃ e2, collectResults l = .error e2 := by
  induction l with
  | nil => simp at h
  | cons r rest ih =>
    rcases List.mem_cons.mp h with h1 | h2
    · exact ⟨e, by rw [← h1]; rfl⟩
    · cases r with
      | error e3 => exact ⟨e3, rfl⟩
      | ok t =>
        obtain ⟨e2, he2⟩ := ih h2
        exact ⟨e2, by simp only [collectResults, he2]⟩

theorem reader_ok_pairwise {fetch : Date → Except PSXErr Table} {order : List Nat}
    {s e : Date} {t : Table}
    (h : readerGetHistoricalData fetch order s e = .ok t) : List.Pairwise rowLT t := by
  unfold readerGetHistoricalData at h
  split at h
  · simp at h
  · split at h
    · obtain rfl : ([] : Table) = t := Except.ok.inj h
      exact List.Pairwise.nil
    · obtain rfl : _ = t := Except.ok.inj h
      exact preprocess_pairwise_lt _

theorem ticker_ok_pairwise {now : Int} {startQ endQ : Option Int} {period : String}
    {fetch : Date → Except PSXErr Table} {order : List Nat} {t : Table}
    (h : tickerGetHistoricalData now startQ endQ period fetch order = .ok t) :
    List.Pairwise rowLT t := by
  simp only [tickerGetHistoricalData] at h
  split at h
  · simp at h
  · split at h
    · rename_i df hdf
      obtain rfl : df = t := Except.ok.inj h
      exact reader_ok_pairwise hdf
    · simp at h

theorem intradayBody_ok {symbol : String} {resp : Except String IntradayPayload}
    {t : List Tick} (h : getIntradayDataBody symbol resp = .ok t) :
    ∃ p st, resp = .ok p ∧ p.status = some st ∧ ¬(st ≠ 1 ∨ p.data.getD [] = [])
      ∧ t = List.insertionSort tickLE (p.data.getD []) := by
  unfold getIntradayDataBody at h
  split at h
  · simp at h
  · rename_i p
    split at h
    · simp at h
    · rename_i st hst
      split at h
      · simp at h
      · rename_i hcond
        exact ⟨p, st, rfl, hst, hcond, (Except.ok.inj h).symm⟩

theorem intraday_ok_spec {symbol : String} {resp : Except String IntradayPayload}
    {t : List Tick} (h : getIntradayData symbol resp = .ok t) :
    t ≠ [] ∧ List.Pairwise tickLE t := by
  unfold getIntradayData at h
  split at h
  · rename_i t0 hbody
    obtain rfl : t0 = t := Except.ok.inj h
    obtain ⟨p, st, -, -, hcond, rfl⟩ := intradayBody_ok hbody
    push_neg at hcond
    refine ⟨?_, List.sorted_insertionSort tickLE _⟩
    intro hnil
    have hlen := (List.perm_insertionSort tickLE (p.data.getD [])).length_eq
    rw [hnil] at hlen
    exact hcond.2 (List.length_eq_zero.mp hlen.symm)
  · simp at h

theorem daysInMonth_pos (y : Int) (m : Nat) : 1 ≤ daysInMonth y m := by
  unfold daysInMonth
  split
  · split <;> norm_num
  · split <;> norm_num

theorem addOneMonth_day {d : Date} (h : d.day = 1) : (addOneMonth d).day = 1 := by
  unfold addOneMonth
  split <;> (dsimp only; rw [h]; exact Nat.min_eq_left (daysInMonth_pos _ _))

theorem monthIdx_addOneMonth (d : Date) : monthIdx (addOneMonth d) = monthIdx d + 1 := by
  unfold addOneMonth
  split
  · rename_i h12
    unfold monthIdx
    dsimp only
    rw [h12]
    push_cast
    ring
  · unfold monthIdx
    dsimp only
    push_cast
    ring

theorem monthIter_length (n : Nat) (d : Date) : (monthIter n d).length = n + 1 := by
  induction n generalizing d with
  | zero => rfl
  | succ k ih => simp [monthIter, ih]

theorem monthIter_head (n : Nat) (d : Date) : (monthIter n d).head? = some d := by
  cases n <;> rfl

theorem monthIter_ne_nil (n : Nat) (d : Date) : monthIter n d ≠ [] := by
  cases n <;> simp [monthIter]

theorem generateDateRange_eq (s e : Date) :
    generateDateRange s e
      = monthIter ((e.toRataDie - s.toRataDie).fdiv 30).toNat ⟨s.year, s.month, 1⟩ := by
  simp [generateDateRange, monthIter_ne_nil]

theorem monthIter_spec (n : Nat) (d : Date) (hd : d.day = 1) :
    ∀ (i : Nat) (x : Date), (monthIter n d)[i]? = some x →
      x.day = 1 ∧ monthIdx x = monthIdx d + i := by
  induction n generalizing d with
  | zero =>
    intro i x hx
    cases i with
    | zero =>
      simp only [monthIter, List.getElem?_cons_zero, Option.some.injEq] at hx
      subst hx
      exact ⟨hd, by simp⟩
    | succ j => simp [monthIter] at hx
  | succ k ih =>
    intro i x hx
    cases i with
    | zero =>
      simp only [monthIter, List.getElem?_cons_zero, Option.some.injEq] at hx
      subst hx
      exact ⟨hd, by simp⟩
    | succ j =>
      simp only [monthIter, List.getElem?_cons_succ] at hx
      obtain ⟨h1, h2⟩ := ih (addOneMonth d) (addOneMonth_day hd) j x hx
      refine ⟨h1, ?_⟩
      rw [h2, monthIdx_addOneMonth]
      push_cast
      ring

/-! ## Claim theorems -/

/-- C1 (counterexample): the claim says a historical call on the Ticker
Facade never returns an empty result as a success — when every unit has
returned empty it must fail with a terminal error.  But a call whose single
month unit fetches an empty frame returns `ok []`: a structurally valid
empty success. -/
theorem c1_counterexample :
    tickerGetHistoricalData 0 (some (Date.toRataDie ⟨2024, 1, 2⟩))
        (some (Date.toRataDie ⟨2024, 1, 2⟩)) "1mo" (fun _ => .ok []) [0]
      = .ok ([] : Table) := rfl

/-- C1 (amended): a historical call either fails with an error or returns a
strictly chronologically sorted table which may be empty (all-empty fetches
are an empty success, not a terminal error); an intraday call either fails
or returns a nonempty table sorted by timestamp. -/
theorem c1_amended :
    (∀ (now : Int) (startQ endQ : Option Int) (period : String)
        (fetch : Date → Except PSXErr Table) (order : List Nat),
      (∃ e2, tickerGetHistoricalData now startQ endQ period fetch order = .error e2)
      ∨ (∃ t, tickerGetHistoricalData now startQ endQ period fetch order = .ok t
          ∧ List.Pairwise rowLT t))
    ∧ (∀ (symbol : String) (resp : Except String IntradayPayload),
      (∃ e2, tickerGetIntradayData symbol resp = .error e2)
      ∨ (∃ t, tickerGetIntradayData symbol resp = .ok t ∧ t ≠ []
          ∧ List.Pairwise tickLE t)) := by
  constructor
  · intro now startQ endQ period fetch order
    cases h : tickerGetHistoricalData now startQ endQ period fetch order with
    | error e2 => exact Or.inl ⟨e2, rfl⟩
    | ok t => exact Or.inr ⟨t, rfl, ticker_ok_pairwise h⟩
  · intro symbol resp
    cases h : tickerGetIntradayData symbol resp with
    | error e2 => exact Or.inl ⟨e2, rfl⟩
    | ok t =>
      have h2 : getIntradayData symbol resp = .ok t := by
        unfold tickerGetIntradayData at h
        split at h
        · rename_i t0 h0
          obtain rfl : t0 = t := Except.ok.inj h
          exact h0
        · simp at h
      obtain ⟨hne, hsort⟩ := intraday_ok_spec h2
      exact Or.inr ⟨t, rfl, hne, hsort⟩

/-- C2 (counterexample): the claim says a unit error is caught at the
fetcher boundary without aborting the batch, and an all-failed batch
returns an empty result instead of raising.  But a batch whose only unit
raises propagates that very error out of
`PSXDataReader.get_historical_data`, and a three-unit batch with one good
sibling is aborted the same way. -/
theorem c2_counterexample :
    readerGetHistoricalData (fun _ => .error (.requestError "boom")) [0]
        ⟨2024, 1, 2⟩ ⟨2024, 1, 2⟩
      = .error (.requestError "boom")
    ∧ readerGetHistoricalData
        (fun d => if d.month = 1
          then .ok [⟨0, .str "1", .str "1", .str "1", .str "1", .str "1"⟩]
          else .error (.requestError "boom"))
        [0, 1, 2] ⟨2024, 1, 2⟩ ⟨2024, 3, 2⟩
      = .error (.requestError "boom") :=
  ⟨rfl, rfl⟩

/-- C2 (amended): a unit error propagates out of the fetcher (the batch is
aborted, nothing is recorded per unit), and the fetcher returns an empty
result exactly when no unit raised and every fetched frame was empty. -/
theorem c2_amended (fetch : Date → Except PSXErr Table) (order : List Nat) (s e : Date) :
    ((∃ err, Except.error err ∈ completedResults fetch order s e) →
      ∃ err2, readerGetHistoricalData fetch order s e = .error err2)
    ∧ ((∀ r ∈ completedResults fetch order s e, r = .ok ([] : Table)) →
      readerGetHistoricalData fetch order s e = .ok []) := by
  constructor
  · rintro ⟨err, hmem⟩
    obtain ⟨e2, he2⟩ := collectResults_error hmem
    exact ⟨e2, by unfold readerGetHistoricalData; rw [he2]⟩
  · intro hall
    unfold readerGetHistoricalData
    rw [collectResults_all_empty hall]
    dsimp only
    by_cases h : List.replicate (completedResults fetch order s e).length ([] : Table) = []
    · rw [if_pos h]
    · rw [if_neg h, preprocess_replicate_nil]

/-- C2 (witness): the amended statement applied to a one-unit batch that
raises, and to a one-unit batch that fetches an empty frame. -/
theorem c2_witness :
    (∃ err2, readerGetHistoricalData (fun _ => .error (.requestError "x")) [0]
        ⟨2024, 1, 2⟩ ⟨2024, 1, 2⟩ = .error err2)
    ∧ readerGetHistoricalData (fun _ => .ok []) [0] ⟨2024, 1, 2⟩ ⟨2024, 1, 2⟩
        = .ok [] := by
  constructor
  · refine (c2_amended (fun _ => .error (.requestError "x")) [0]
        ⟨2024, 1, 2⟩ ⟨2024, 1, 2⟩).1 ⟨.requestError "x", ?_⟩
    rw [show completedResults (fun _ => .error (.requestError "x")) [0]
        ⟨2024, 1, 2⟩ ⟨2024, 1, 2⟩ = [.error (.requestError "x")] from rfl]
    exact List.mem_cons_self _ _
  · refine (c2_amended (fun _ => .ok []) [0] ⟨2024, 1, 2⟩ ⟨2024, 1, 2⟩).2 ?_
    intro r hr
    rw [show completedResults (fun _ => .ok []) [0] ⟨2024, 1, 2⟩ ⟨2024, 1, 2⟩
        = [.ok []] from rfl] at hr
    simpa using hr

/-- C3 (counterexample): the claim says the partitioner emits one unit per
calendar month touched by `[start, end]`.  For start 2024-01-31 and end
2024-02-01 (start ≤ end) the gap is one day, `1 // 30 = 0`, and only
January is emitted although February is touched. -/
theorem c3_counterexample :
    Date.toRataDie ⟨2024, 1, 31⟩ ≤ Date.toRataDie ⟨2024, 2, 1⟩
    ∧ generateDateRange ⟨2024, 1, 31⟩ ⟨2024, 2, 1⟩ = [⟨2024, 1, 1⟩]
    ∧ ∀ d ∈ generateDateRange ⟨2024, 1, 31⟩ ⟨2024, 2, 1⟩,
        ¬(d.year = 2024 ∧ d.month = 2) :=
  ⟨by decide, by decide, by decide⟩

/-- C3 (amended): the partitioner emits `(end - start).days // 30 + 1`
first-of-month dates (so always at least the month containing start, also
for inverted ranges) with consecutive ascending month indexes starting at
start's month — no gaps, no duplicates, but the window covered is the
day-count heuristic's, which can omit touched months or append untouched
ones. -/
theorem c3_amended (s e : Date) :
    (generateDateRange s e).length
        = ((e.toRataDie - s.toRataDie).fdiv 30).toNat + 1
    ∧ (generateDateRange s e).head? = some ⟨s.year, s.month, 1⟩
    ∧ ∀ (i : Nat) (d : Date), (generateDateRange s e)[i]? = some d →
        d.day = 1 ∧ monthIdx d = monthIdx ⟨s.year, s.month, 1⟩ + i := by
  rw [generateDateRange_eq]
  exact ⟨monthIter_length _ _, monthIter_head _ _, monthIter_spec _ _ rfl⟩

/-- C3 (witness): the amended statement applied to the single-month range
2023-10-01 – 2023-10-05 at index 0. -/
theorem c3_witness :
    Date.day ⟨2023, 10, 1⟩ = 1
    ∧ monthIdx ⟨2023, 10, 1⟩ = monthIdx ⟨2023, 10, 1⟩ + ((0 : Nat) : Int) :=
  (c3_amended ⟨2023, 10, 1⟩ ⟨2023, 10, 5⟩).2.2 0 ⟨2023, 10, 1⟩ (by decide)

/-- C4 (counterexample): the claim says merge/normalization maps every
non-numeric or empty cell to zero.  On a row holding `"-"` and `""` the
coercion produces NaN cells, and NaN is not the number zero. -/
theorem c4_counterexample :
    preprocessData [[⟨0, .str "-", .str "", .str "1,234.50", .str "x", .str "100"⟩]]
      = [⟨0, Cell.nan, Cell.nan, Cell.num (2469 / 2), Cell.nan, Cell.num 100⟩]
    ∧ Cell.nan ≠ Cell.num 0 := by
  constructor
  · rw [show preprocessData [[⟨0, .str "-", .str "", .str "1,234.50", .str "x", .str "100"⟩]]
        = [⟨0, Cell.nan, Cell.nan, Cell.num ((1234 : ℚ) + 50 / 10 ^ 2), Cell.nan,
            Cell.num 100⟩] from rfl]
    norm_num
  · decide

/-- C4 (amended): merge/normalization coerces every declared numeric
column cell to a numeric value or NaN — `"1,234.50"` becomes `1234.50`
after comma removal, while non-numeric or empty cells (`"-"`, `""`) become
NaN (missing), not zero. -/
theorem c4_amended :
    (∀ s : String, pyFloat? (removeCommas s) = none → coerceCell (.str s) = Cell.nan)
    ∧ (∀ (s : String) (q : ℚ), pyFloat? (removeCommas s) = some q →
        coerceCell (.str s) = Cell.num q)
    ∧ coerceCell (.str "1,234.50") = Cell.num (2469 / 2)
    ∧ coerceCell (.str "-") = Cell.nan
    ∧ coerceCell (.str "") = Cell.nan
    ∧ (∀ (data : List Table), ∀ r ∈ preprocessData data,
        isCoerced r.open_ ∧ isCoerced r.high ∧ isCoerced r.low
          ∧ isCoerced r.close ∧ isCoerced r.volume) := by
  refine ⟨?_, ?_, ?_, by decide, by decide, ?_⟩
  · intro s h
    simp [coerceCell, h]
  · intro s q h
    simp [coerceCell, h]
  · rw [show coerceCell (.str "1,234.50") = Cell.num ((1234 : ℚ) + 50 / 10 ^ 2) from rfl]
    norm_num
  · intro data r hr
    by_cases h : data = []
    · simp [preprocessData, h] at hr
    · rw [preprocessData_eq data h] at hr
      rw [List.mem_map] at hr
      obtain ⟨x, -, rfl⟩ := hr
      exact ⟨isCoerced_coerceCell _, isCoerced_coerceCell _, isCoerced_coerceCell _,
        isCoerced_coerceCell _, isCoerced_coerceCell _⟩

/-- C4 (witness): the amended statement applied to the concrete cells
`"abc"` (unparseable) and `"7"` (numeric), and to the output row of a
concrete merged table. -/
theorem c4_witness :
    coerceCell (.str "abc") = Cell.nan
    ∧ coerceCell (.str "7") = Cell.num 7
    ∧ isCoerced (Row.open_ ⟨0, Cell.nan, Cell.nan, Cell.num 8, Cell.nan, Cell.num 100⟩) :=
  ⟨c4_amended.1 "abc" (by decide),
   c4_amended.2.1 "7" 7 (by decide),
   (c4_amended.2.2.2.2.2
      [[⟨0, .str "-", .str "", .str "8", .str "x", .str "100"⟩]]
      ⟨0, Cell.nan, Cell.nan, Cell.num 8, Cell.nan, Cell.num 100⟩
      (by decide)).1⟩

/-- C5 (code bug): a row with fewer columns than the 6-entry header is
dropped while valid rows survive, as claimed; but a row whose date cell
fails the `"%b %d, %Y"` parse is not dropped in its entirety — the
`continue` skips only the TIME append, the other five cells are still
appended, and the resulting unequal column lists make the DataFrame
construction raise instead of returning the remaining valid rows. -/
theorem c5_code_bug :
    parseHtmlTable [["Jan 02, 2024", "10", "12", "9", "11", "1,000"], ["x", "y"]]
      = .ok [⟨Date.toRataDie ⟨2024, 1, 2⟩,
          .str "10", .str "12", .str "9", .str "11", .str "1,000"⟩]
    ∧ parseHtmlTable [["Jan 02, 2024", "10", "12", "9", "11", "1,000"],
        ["garbage", "1", "2", "3", "4", "5"]]
      = .error "ValueError: All arrays must be of the same length" :=
  ⟨rfl, rfl⟩

/-- C6 (code bug): a period `"Xmo"` derives `start = end - 30*X` days as
claimed (3mo before 2024-06-15 is 2024-03-17), but no `"Xy"` period can
ever reach the year branch: `period[-2:]` is two characters, so the unit
test `unit == "y"` is unreachable, `"1y"` leaves `int("")` to raise, and a
two-digit `"12y"` fails the format check — contradicting the method's own
docstring, which lists `"1y"` as a valid period. -/
theorem c6_code_bug :
    derivePeriodStart (Date.toRataDie ⟨2024, 6, 15⟩) "3mo"
        = .ok (Date.toRataDie ⟨2024, 3, 17⟩)
    ∧ (∀ endRd : Int, derivePeriodStart endRd "1y"
        = .error (.valueError "invalid literal for int() with base 10"))
    ∧ (∀ endRd : Int, derivePeriodStart endRd "12y"
        = .error (.valueError "Invalid period format. Use Xmo or Xy (e.g. 1mo, 1y)")) :=
  ⟨rfl, fun _ => rfl, fun _ => rfl⟩

/-- C7 (confirmed): the Direct-API adapter retries once against the
secondary endpoint on HTTP 404 (the outcome is that of the second
response), fails on HTTP 401 without retrying, fails on any other non-200
status with a transient-request error naming the status, and a 200
response whose JSON `data` list is empty yields an empty result, not an
error. -/
theorem c7_confirmed :
    (∀ r1 r2 : ApiResponse, r1.status = 404 →
        fetch_historical_data r1 r2 = respondHistorical r2)
    ∧ (∀ r1 r2 : ApiResponse, r1.status ≠ 404 →
        fetch_historical_data r1 r2 = respondHistorical r1)
    ∧ (∀ r : ApiResponse, r.status = 401 →
        respondHistorical r = .error (.requestError
          "Error fetching historical data: Unauthorized access to PSX API"))
    ∧ (∀ r : ApiResponse, r.status ≠ 401 → r.status ≠ 200 →
        respondHistorical r = .error (.requestError
          ("Error fetching historical data: "
            ++ ("Failed to fetch historical data: HTTP " ++ toString r.status))))
    ∧ (∀ r : ApiResponse, r.status = 200 → r.json? = some (.withData []) →
        respondHistorical r = .ok []) := by
  refine ⟨?_, ?_, ?_, ?_, ?_⟩
  · intro r1 r2 h
    unfold fetch_historical_data
    rw [if_pos h]
  · intro r1 r2 h
    unfold fetch_historical_data
    rw [if_neg h]
  · intro r h
    unfold respondHistorical processResponse
    rw [if_pos h]
    rfl
  · intro r h1 h2
    unfold respondHistorical processResponse
    rw [if_neg h1, if_pos h2]
    rfl
  · intro r h1 h2
    unfold respondHistorical processResponse
    rw [if_neg (by simp [h1]), if_neg (by simp [h1]), h2]
    rfl

/-- C7 (witness): a 404 followed by a 200 with empty `data` yields an
empty success; a 401 and a 500 yield the stated errors. -/
theorem c7_witness :
    fetch_historical_data ⟨404, none, none⟩ ⟨200, some (.withData []), none⟩ = .ok []
    ∧ respondHistorical ⟨401, none, none⟩ = .error (.requestError
        "Error fetching historical data: Unauthorized access to PSX API")
    ∧ respondHistorical ⟨500, none, none⟩ = .error (.requestError
        ("Error fetching historical data: "
          ++ ("Failed to fetch historical data: HTTP " ++ toString (500 : Nat)))) :=
  ⟨(c7_confirmed.1 ⟨404, none, none⟩ ⟨200, some (.withData []), none⟩ rfl).trans
      (c7_confirmed.2.2.2.2 ⟨200, some (.withData []), none⟩ rfl rfl),
   c7_confirmed.2.2.1 ⟨401, none, none⟩ rfl,
   c7_confirmed.2.2.2.1 ⟨500, none, none⟩ (by decide) (by decide)⟩

/-- C8 (confirmed): the merge of `_preprocess_data` is idempotent, resolves
a duplicate timestamp by input position keeping the later record's values,
and always produces output strictly ascending in timestamp. -/
theorem c8_confirmed :
    (∀ x : List Table, preprocessData [preprocessData x] = preprocessData x)
    ∧ (∀ a b : Row, a.time = b.time → preprocessData [[a], [b]] = [coerceRow b])
    ∧ (∀ x : List Table, List.Pairwise rowLT (preprocessData x)) := by
  refine ⟨preprocess_idem, ?_, preprocess_pairwise_lt⟩
  intro a b h
  rw [preprocessData_eq _ (by simp)]
  rw [show ([[a], [b]] : List Table).flatten = [a, b] by simp]
  rw [show dropDuplicatesKeepLast [a, b] = [b] by simp [dropDuplicatesKeepLast, h]]
  rfl

/-- C8 (witness): last-write-wins applied to two concrete rows sharing
timestamp 5. -/
theorem c8_witness :
    preprocessData [[⟨5, .str "1", .str "1", .str "1", .str "1", .str "1"⟩],
        [⟨5, .str "2", .str "2", .str "2", .str "2", .str "2"⟩]]
      = [coerceRow ⟨5, .str "2", .str "2", .str "2", .str "2", .str "2"⟩] :=
  c8_confirmed.2.1 ⟨5, .str "1", .str "1", .str "1", .str "1", .str "1"⟩
    ⟨5, .str "2", .str "2", .str "2", .str "2", .str "2"⟩ rfl

/-- C9 (counterexample): the claim says an intraday response with
`status != 1` fails with the `PSXDataError` class as distinguished from a
connection error; but the blanket `except Exception` of
`get_intraday_data` converts the internally raised `PSXDataError` into a
`PSXConnectionError` before it reaches the caller. -/
theorem c9_counterexample :
    getIntradayData "PSO" (.ok ⟨some 0, some [(0, 1, 1)]⟩)
      = .error (.connectionError
          "Failed to fetch intraday data for PSO: No intraday data available for PSO")
    ∧ ∀ m, getIntradayData "PSO" (.ok ⟨some 0, some [(0, 1, 1)]⟩)
        ≠ .error (.dataError m) := by
  refine ⟨rfl, fun m h => ?_⟩
  rw [show getIntradayData "PSO" (.ok ⟨some 0, some [(0, 1, 1)]⟩)
      = .error (.connectionError
          "Failed to fetch intraday data for PSO: No intraday data available for PSO")
    from rfl] at h
  simp at h

/-- C9 (amended): a response with `status != 1` or missing/empty `data`
raises `PSXDataError` inside the method body, but the error surfacing to
the caller is a `PSXConnectionError` wrapping that message. -/
theorem c9_amended (symbol : String) (p : IntradayPayload) (st : Int)
    (hst : p.status = some st) (h : st ≠ 1 ∨ p.data.getD [] = []) :
    getIntradayDataBody symbol (.ok p)
        = .error (.psxDataError ("No intraday data available for " ++ symbol))
    ∧ getIntradayData symbol (.ok p)
        = .error (.connectionError ("Failed to fetch intraday data for " ++ symbol
            ++ ": " ++ ("No intraday data available for " ++ symbol))) := by
  have hb : getIntradayDataBody symbol (.ok p)
      = .error (.psxDataError ("No intraday data available for " ++ symbol)) := by
    simp only [getIntradayDataBody, hst]
    rw [if_pos h]
  refine ⟨hb, ?_⟩
  unfold getIntradayData
  rw [hb]
  rfl

/-- C9 (witness): the amended statement applied to a concrete payload with
status 0. -/
theorem c9_witness :
    getIntradayDataBody "PSO" (.ok ⟨some 0, some [(0, 1, 1)]⟩)
      = .error (.psxDataError "No intraday data available for PSO") :=
  (c9_amended "PSO" ⟨some 0, some [(0, 1, 1)]⟩ 0 rfl (Or.inl (by decide))).1

/-- C10 (confirmed): `parse_float` replaces every dash with a zero digit
before conversion, so `"-5"` yields `5`, `"-1.5"` yields `1.5`, no input
ever yields a negative value, and any input whose rewritten form still
fails float conversion yields `0`. -/
theorem c10_confirmed :
    parse_float "-5" = 5
    ∧ parse_float "-1.5" = 3 / 2
    ∧ (∀ value : String, 0 ≤ parse_float value)
    ∧ (∀ value : String, pyFloat? (pyReplaceDashes value) = none →
        parse_float value = 0) := by
  refine ⟨rfl, ?_, parse_float_nonneg, ?_⟩
  · rw [show parse_float "-1.5" = ((1 : ℚ) + 5 / 10 ^ 1) from rfl]
    norm_num
  · intro value h
    unfold parse_float
    rw [h]

/-- C10 (witness): the fallback clause applied to the unparseable string
`"abc"`. -/
theorem c10_witness : parse_float "abc" = 0 :=
  c10_confirmed.2.2.2 "abc" (by decide)

